import Mathlib

/-!
Verification of the TEnKF (transposed ensemble Kalman filter) implementation in
econsieve/tenkf.py against its natural-language specification.  All numeric code
is embedded over exact rationals; matrices use the Mathlib matrix type.  The
sampler, the Gaussian log-density and the generalized matrix inverse are external
collaborators of the filter and are modelled as parameters; the noise values they
would return are likewise passed in explicitly.
-/

namespace Econsieve

/-- Centering operator: models `I2 = np.eye(N) - np.outer(I1, I1)/N` (tenkf.py
lines 61-62).  Right-multiplying an ensemble by it subtracts the ensemble mean. -/
def centering (n : ℕ) : Matrix (Fin n) (Fin n) ℚ :=
  1 - Matrix.of fun _ _ => (n : ℚ)⁻¹

/-- Mean of one row of a matrix, models `np.mean(Y, axis=1)` at one row index. -/
def rowMean {p n : ℕ} (Y : Matrix (Fin p) (Fin n) ℚ) (a : Fin p) : ℚ :=
  (∑ i, Y a i) / (n : ℚ)

/-- The matrix with the mean of each row subtracted from that row (the
ensemble-anomaly matrix of the spec). -/
def centered {p n : ℕ} (Y : Matrix (Fin p) (Fin n) ℚ) : Matrix (Fin p) (Fin n) ℚ :=
  Matrix.of fun a i => Y a i - rowMean Y a

/-- Models `np.cov(Y)` for a p x n matrix with n >= 2 observations: rows are
variables, columns are observations, default ddof = 1, i.e. the
row-mean-subtracted matrix times its transpose divided by n - 1.  For a single
observation (n = 1) the real np.cov divides zero by zero, warning and
returning NaN; that floating-point degradation has no rational counterpart
(here the inverse of zero is zero), so no theorem below instantiates this
definition at n = 1. -/
def npCov {p n : ℕ} (Y : Matrix (Fin p) (Fin n) ℚ) : Matrix (Fin p) (Fin p) ℚ :=
  let Yc := Matrix.of fun a i => Y a i - (∑ j, Y a j) / (n : ℚ)
  ((n : ℚ) - 1)⁻¹ • (Yc * Yc.transpose)

/-- Sample covariance written exactly as the specification words it: entrywise
sums of products of mean deviations, normalized by n - 1. -/
def specSampleCov {p n : ℕ} (Y : Matrix (Fin p) (Fin n) ℚ) : Matrix (Fin p) (Fin p) ℚ :=
  Matrix.of fun a b => (∑ i, (Y a i - rowMean Y a) * (Y b i - rowMean Y b)) / ((n : ℚ) - 1)

/-- Models `numpy.linalg.inv`: fails with LinAlgError exactly on a singular
matrix, otherwise returns the inverse (here det⁻¹ • adjugate, which coincides
with the Mathlib matrix inverse). -/
def npInv {n : ℕ} (A : Matrix (Fin n) (Fin n) ℚ) : Except String (Matrix (Fin n) (Fin n) ℚ) :=
  if A.det = 0 then .error "LinAlgError: Singular matrix"
  else .ok (A.det⁻¹ • A.adjugate)

/-- Models the truth value of a numpy array, as taken by `init_states or ...`
(tenkf.py line 81): an array with more than one element raises ValueError, an
array with at most one element is truthy iff it has a nonzero element. -/
def npTruthy {m n : ℕ} (M : Matrix (Fin m) (Fin n) ℚ) : Except String Bool :=
  if 1 < m * n then
    .error "ValueError: The truth value of an array with more than one element is ambiguous"
  else
    .ok (decide (∃ a b, M a b ≠ 0))

/-- Models a Python attribute read: `none` is an attribute that was never
assigned, whose access raises AttributeError. -/
def attrGet {γ : Type} (o : Option γ) (msg : String) : Except String γ :=
  match o with
  | some v => .ok v
  | none => .error msg

/-- The filter object built by `TEnKF.__init__` (tenkf.py lines 16-47): the
transition and observation collaborators and the covariance attributes.  The
ensemble size N and the two dimensions are type-level parameters; α is the type
of the second component of the tuple returned by the transition function (the
code keeps only component 0, line 90). -/
structure TEnKF (dx dz N : ℕ) (α : Type) where
  t_func : (Fin dx → ℚ) → (Fin dx → ℚ) → (Fin dx → ℚ) × α
  o_func : Matrix (Fin N) (Fin dx) ℚ → Matrix (Fin N) (Fin dz) ℚ
  R : Matrix (Fin dz) (Fin dz) ℚ
  Q : Matrix (Fin dx) (Fin dx) ℚ
  P : Matrix (Fin dx) (Fin dx) ℚ
  x : Fin dx → ℚ

/-- Models `TEnKF.__init__` (tenkf.py lines 16-30): stores the collaborators,
sets R, Q, P to identity matrices and x to zero.  It is a total function: no
value of N (in particular not N = 1) is validated or rejected. -/
def TEnKF.init (dx dz N : ℕ) {α : Type}
    (fx : (Fin dx → ℚ) → (Fin dx → ℚ) → (Fin dx → ℚ) × α)
    (hx : Matrix (Fin N) (Fin dx) ℚ → Matrix (Fin N) (Fin dz) ℚ) :
    TEnKF dx dz N α :=
  { t_func := fx, o_func := hx, R := 1, Q := 1, P := 1, x := fun _ => 0 }

/-- The quantities produced by one filtering step (tenkf.py lines 87-102):
the predicted ensemble, the predicted-observation ensemble Y, the prior
anomaly X_bar, the innovation covariance S, and the updated ensemble. -/
structure StepOut (dx dz N : ℕ) where
  Xpred : Matrix (Fin dx) (Fin N) ℚ
  Y : Matrix (Fin dz) (Fin N) ℚ
  X_bar : Matrix (Fin dx) (Fin N) ℚ
  S : Matrix (Fin dz) (Fin dz) ℚ
  Xnew : Matrix (Fin dx) (Fin N) ℚ
  deriving DecidableEq

/-- The predict stage (tenkf.py lines 88-90): every column i of the ensemble is
replaced by component 0 of `t_func` applied to that column and its noise draw.
The in-place loop of the code only ever reads the column it writes, so the
columnwise map is equivalent. -/
def predictEns {dx N : ℕ} {α : Type}
    (t_func : (Fin dx → ℚ) → (Fin dx → ℚ) → (Fin dx → ℚ) × α)
    (eps_t : Fin N → Fin dx → ℚ) (X : Matrix (Fin dx) (Fin N) ℚ) :
    Matrix (Fin dx) (Fin N) ℚ :=
  Matrix.of fun d i => (t_func (fun e => X e i) (eps_t i)).1 d

/-- The observation stage (tenkf.py line 92): `Y = o_func(X.T).T`. -/
def obsY {dx dz N : ℕ} {α : Type} (self : TEnKF dx dz N α)
    (Xp : Matrix (Fin dx) (Fin N) ℚ) : Matrix (Fin dz) (Fin N) ℚ :=
  (self.o_func Xp.transpose).transpose

/-- Models `ZZ = np.outer(z, I1)` (tenkf.py line 100): every column is z. -/
def obsMat {dz : ℕ} (N : ℕ) (z : Fin dz → ℚ) : Matrix (Fin dz) (Fin N) ℚ :=
  Matrix.of fun p _ => z p

/-- One filtering step of `batch_filter` (tenkf.py lines 87-102): predict,
observe, center, form S = np.cov(Y) + R, invert (N-1)·S and apply the update
`X += X_bar @ Y_bar.T @ inv((N-1) S) @ (ZZ - Y - mus[nz].T)`. -/
def filterStep {dx dz N : ℕ} {α : Type} (self : TEnKF dx dz N α) (z : Fin dz → ℚ)
    (mus_t : Matrix (Fin N) (Fin dz) ℚ) (eps_t : Fin N → Fin dx → ℚ)
    (X : Matrix (Fin dx) (Fin N) ℚ) : Except String (StepOut dx dz N) :=
  let Xp := predictEns self.t_func eps_t X
  let Y := obsY self Xp
  let X_bar := Xp * centering N
  let Y_bar := Y * centering N
  let S := npCov Y + self.R
  match npInv (((N : ℚ) - 1) • S) with
  | .error e => .error e
  | .ok Sinv =>
      .ok { Xpred := Xp, Y := Y, X_bar := X_bar, S := S,
            Xnew := Xp + X_bar * Y_bar.transpose * Sinv * (obsMat N z - Y - mus_t.transpose) }

/-- The mutable state threaded through the time loop of `batch_filter`: the
live ensemble X, the running log-likelihood, and the four history arrays.
The history arrays start out as `np.empty` buffers with unspecified contents
(passed in as `junk`), exactly as in tenkf.py lines 64-68 and 83. -/
structure LoopState (dx N T : ℕ) where
  X : Matrix (Fin dx) (Fin N) ℚ
  ll : ℚ
  Xs : Fin T → Matrix (Fin dx) (Fin N) ℚ
  X_priors : Fin T → Matrix (Fin dx) (Fin N) ℚ
  X_bars : Fin T → Matrix (Fin dx) (Fin N) ℚ
  X_bar_priors : Fin T → Matrix (Fin dx) (Fin N) ℚ
  deriving DecidableEq

/-- The body of the time loop (tenkf.py lines 85-115) for step t: run the
filtering step, record the histories if storing, accumulate the log-likelihood
if requested, else record the posterior ensemble (line 115). -/
def filterBody {dx dz N T : ℕ} {α : Type} (self : TEnKF dx dz N α)
    (Z : Fin T → Fin dz → ℚ) (store calc_ll : Bool)
    (logpdf : (Fin dz → ℚ) → (Fin dz → ℚ) → Matrix (Fin dz) (Fin dz) ℚ → ℚ)
    (mus : Fin T → Matrix (Fin N) (Fin dz) ℚ)
    (epss : Fin T → Fin N → Fin dx → ℚ)
    (t : Fin T) (s : LoopState dx N T) : Except String (LoopState dx N T) :=
  match filterStep self (Z t) (mus t) (epss t) s.X with
  | .error e => .error e
  | .ok out =>
      let xp := if store then Function.update s.X_priors t out.Xpred else s.X_priors
      let xbp := if store then Function.update s.X_bar_priors t out.X_bar else s.X_bar_priors
      let xb := if store then Function.update s.X_bars t (out.Xnew * centering N) else s.X_bars
      let xs1 := if store then Function.update s.Xs t out.Xnew else s.Xs
      let ll1 := if calc_ll
        then s.ll + logpdf (fun p => Z t p - rowMean out.Y p) (fun _ => 0) out.S
        else s.ll
      let xs2 := if calc_ll then xs1 else Function.update xs1 t out.Xnew
      .ok { X := out.Xnew, ll := ll1, Xs := xs2,
            X_priors := xp, X_bars := xb, X_bar_priors := xbp }

/-- The time loop of `batch_filter` over the (ordered) list of step indices:
an error at any step aborts the whole remaining recursion. -/
def filterLoop {dx dz N T : ℕ} {α : Type} (self : TEnKF dx dz N α)
    (Z : Fin T → Fin dz → ℚ) (store calc_ll : Bool)
    (logpdf : (Fin dz → ℚ) → (Fin dz → ℚ) → Matrix (Fin dz) (Fin dz) ℚ → ℚ)
    (mus : Fin T → Matrix (Fin N) (Fin dz) ℚ)
    (epss : Fin T → Fin N → Fin dx → ℚ) :
    List (Fin T) → LoopState dx N T → Except String (LoopState dx N T)
  | [], s => .ok s
  | t :: ts, s =>
      match filterBody self Z store calc_ll logpdf mus epss t s with
      | .error e => .error e
      | .ok s1 => filterLoop self Z store calc_ll logpdf mus epss ts s1

/-- The attributes that a `batch_filter` run leaves on the filter object and
that `rts_smoother` reads.  `none` models an attribute that was never
assigned.  `Xs` is always assigned by a completed run (tenkf.py line 83); the
other three histories only exist when the run stored them (lines 64-68), and
`ll` only when the log-likelihood was computed (line 118). -/
structure FilterState (dx N T : ℕ) where
  Xs : Option (Fin T → Matrix (Fin dx) (Fin N) ℚ)
  X_priors : Option (Fin T → Matrix (Fin dx) (Fin N) ℚ)
  X_bars : Option (Fin T → Matrix (Fin dx) (Fin N) ℚ)
  X_bar_priors : Option (Fin T → Matrix (Fin dx) (Fin N) ℚ)
  ll : Option ℚ
  deriving DecidableEq

/-- The filter attributes retained after a completed `batch_filter` run. -/
def finishState {dx N T : ℕ} (store calc_ll : Bool) (s : LoopState dx N T) :
    FilterState dx N T :=
  { Xs := some s.Xs
    X_priors := if store then some s.X_priors else none
    X_bars := if store then some s.X_bars else none
    X_bar_priors := if store then some s.X_bar_priors else none
    ll := if calc_ll then some s.ll else none }

/-- Models `np.rollaxis(Xs, 2)` on a T x dx x N history (tenkf.py lines 121 and
137): the ensemble-member axis becomes the outermost axis. -/
def rollXs {dx N T : ℕ} (Xs : Fin T → Matrix (Fin dx) (Fin N) ℚ) :
    Fin N → Fin T → Fin dx → ℚ :=
  fun i t d => Xs t d i

/-- Models `X = init_states or sampled` (tenkf.py line 81): Python first takes
the truth value of `init_states`; `None` is falsy, a numpy array with more than
one element raises ValueError. -/
def selectInit {dx N : ℕ} (init_states : Option (Matrix (Fin dx) (Fin N) ℚ))
    (sampled : Matrix (Fin dx) (Fin N) ℚ) :
    Except String (Matrix (Fin dx) (Fin N) ℚ) :=
  match init_states with
  | none => .ok sampled
  | some A =>
      match npTruthy A with
      | .error e => .error e
      | .ok b => .ok (if b then A else sampled)

/-- Models `TEnKF.batch_filter` (tenkf.py lines 50-121).  The stochastic
collaborators are explicit: `logpdf` is the log-density collaborator, `mus` and
`epss` are the observation- and process-noise draws the sampler would return,
`sampledInit` the sampled initial ensemble, and `junk` the unspecified contents
of the `np.empty` history buffers.  The draw of `epss` (line 80) passes a
zero mean of length dim_z together with the dim_x x dim_x covariance Q to the
sampler; both sampler implementations reject a mean whose length differs from
the covariance dimension, so the run fails outright unless dz = dx.  The result
is the log-likelihood or the rolled ensemble history, selected by `calc_ll`,
paired with the retained filter attributes. -/
def batch_filter {dx dz N T : ℕ} {α : Type} (self : TEnKF dx dz N α)
    (Z : Fin T → Fin dz → ℚ)
    (init_states : Option (Matrix (Fin dx) (Fin N) ℚ))
    (store calc_ll : Bool)
    (logpdf : (Fin dz → ℚ) → (Fin dz → ℚ) → Matrix (Fin dz) (Fin dz) ℚ → ℚ)
    (mus : Fin T → Matrix (Fin N) (Fin dz) ℚ)
    (epss : Fin T → Fin N → Fin dx → ℚ)
    (sampledInit : Matrix (Fin dx) (Fin N) ℚ)
    (junk : Fin T → Matrix (Fin dx) (Fin N) ℚ) :
    Except String ((ℚ ⊕ (Fin N → Fin T → Fin dx → ℚ)) × FilterState dx N T) :=
  if dz = dx then
    match selectInit init_states sampledInit with
    | .error e => .error e
    | .ok X0 =>
        match filterLoop self Z store calc_ll logpdf mus epss (List.finRange T)
            { X := X0, ll := 0, Xs := junk, X_priors := junk,
              X_bars := junk, X_bar_priors := junk } with
        | .error e => .error e
        | .ok s =>
            .ok (if calc_ll then Sum.inl s.ll else Sum.inr (rollXs s.Xs),
                 finishState store calc_ll s)
  else .error "ValueError: mean and cov must have same length"

/-- The running smoothed ensemble of `rts_smoother`, indexed by distance from
the last time step: distance 0 is the final posterior ensemble `Xs[-1]`
(tenkf.py line 125); each further step applies the gain
`J = X_bars[i] @ tinv(X_bar_priors[i+1])` and the correction
`S = Xs[i] + J @ (S - X_priors[i+1])` (lines 130-131). -/
def smoothedAt {dx N T : ℕ} (hT : 0 < T)
    (Xs Xb Xp Xbp : Fin T → Matrix (Fin dx) (Fin N) ℚ)
    (pinv : Matrix (Fin dx) (Fin N) ℚ → Matrix (Fin N) (Fin dx) ℚ) :
    ℕ → Matrix (Fin dx) (Fin N) ℚ
  | 0 => Xs ⟨T - 1, by omega⟩
  | k + 1 =>
      if k + 1 ≤ T - 1 then
        Xs ⟨T - 1 - (k + 1), by omega⟩ +
          (Xb ⟨T - 1 - (k + 1), by omega⟩ * pinv (Xbp ⟨T - 1 - k, by omega⟩)) *
            (smoothedAt hT Xs Xb Xp Xbp pinv k - Xp ⟨T - 1 - k, by omega⟩)
      else smoothedAt hT Xs Xb Xp Xbp pinv k

/-- The smoothed history produced by the backward loop of `rts_smoother`:
entry i is the running smoothed state after the loop has processed step i. -/
def rtsCore {dx N T : ℕ} (hT : 0 < T)
    (Xs Xb Xp Xbp : Fin T → Matrix (Fin dx) (Fin N) ℚ)
    (pinv : Matrix (Fin dx) (Fin N) ℚ → Matrix (Fin N) (Fin dx) ℚ) :
    Fin T → Matrix (Fin dx) (Fin N) ℚ :=
  fun i => smoothedAt hT Xs Xb Xp Xbp pinv (T - 1 - i.val)

/-- Models `TEnKF.rts_smoother` (tenkf.py lines 123-137).  `means`, `covs` and
`rcond` are the signature parameters of the Python method; `pinv` is the
generalized-inverse collaborator `tinv`.  Reading a never-assigned attribute
raises AttributeError; `Xs[-1]` on a length-0 history raises IndexError; with
exactly one time step the backward loop body never runs, so the anomaly
histories are never read and the copied history is returned unchanged. -/
def rts_smoother {dx N T : ℕ} {μ κ : Type} (st : FilterState dx N T)
    (means : μ) (covs : κ) (rcond : ℚ)
    (pinv : Matrix (Fin dx) (Fin N) ℚ → Matrix (Fin N) (Fin dx) ℚ) :
    Except String (Fin T → Matrix (Fin dx) (Fin N) ℚ) :=
  match attrGet st.Xs "AttributeError: Xs" with
  | .error e => .error e
  | .ok Xs =>
      if hT : T = 0 then .error "IndexError: index -1 is out of bounds" else
      if T = 1 then .ok Xs else
      match attrGet st.X_bars "AttributeError: X_bars" with
      | .error e => .error e
      | .ok Xb =>
          match attrGet st.X_bar_priors "AttributeError: X_bar_priors" with
          | .error e => .error e
          | .ok Xbp =>
              match attrGet st.X_priors "AttributeError: X_priors" with
              | .error e => .error e
              | .ok Xp => .ok (rtsCore (Nat.pos_of_ne_zero hT) Xs Xb Xp Xbp pinv)

/-- Whether an Except value is a success. -/
def isOkB {ε γ : Type} : Except ε γ → Bool
  | .ok _ => true
  | .error _ => false

/-- A transition collaborator on a one-dimensional state: adds the noise draw
and returns a unit second component. -/
def fx1 : (Fin 1 → ℚ) → (Fin 1 → ℚ) → (Fin 1 → ℚ) × Unit :=
  fun x e => (fun d => x d + e d, ())

/-- An identity observation collaborator for a two-member one-dimensional
ensemble. -/
def hx1 : Matrix (Fin 2) (Fin 1) ℚ → Matrix (Fin 2) (Fin 1) ℚ := fun M => M

/-- A concrete filter: one-dimensional state and observation, two ensemble
members, identity covariances. -/
def self1 : TEnKF 1 1 2 Unit := ⟨fx1, hx1, 1, 1, 1, fun _ => 0⟩

/-- A log-density collaborator that returns zero. -/
def lpdf0 {dz : ℕ} : (Fin dz → ℚ) → (Fin dz → ℚ) → Matrix (Fin dz) (Fin dz) ℚ → ℚ :=
  fun _ _ _ => 0

/-- A one-step observation sequence with a one-dimensional zero observation. -/
def Z1 : Fin 1 → Fin 1 → ℚ := fun _ _ => 0

/-- Zero observation-noise draws for one step of a two-member ensemble. -/
def mus1 : Fin 1 → Matrix (Fin 2) (Fin 1) ℚ := fun _ => 0

/-- Zero process-noise draws for one step of a two-member one-dimensional
ensemble. -/
def eps1 : Fin 1 → Fin 2 → Fin 1 → ℚ := fun _ _ _ => 0

/-- A zero length-1 history buffer of one state dimension and two members,
standing in for the unspecified contents of np.empty. -/
def j1 : Fin 1 → Matrix (Fin 1) (Fin 2) ℚ := fun _ => 0

/-- A transition collaborator on a two-dimensional state. -/
def fx2 : (Fin 2 → ℚ) → (Fin 2 → ℚ) → (Fin 2 → ℚ) × Unit := fun x _ => (x, ())

/-- An observation collaborator from a two-dimensional state to a
one-dimensional observation. -/
def hx2 : Matrix (Fin 2) (Fin 2) ℚ → Matrix (Fin 2) (Fin 1) ℚ := fun _ => 0

/-- A concrete filter with state dimension 2 and observation dimension 1. -/
def self2 : TEnKF 2 1 2 Unit := ⟨fx2, hx2, 1, 1, 1, fun _ => 0⟩

/-- Zero process-noise draws for one step of a two-member two-dimensional
ensemble. -/
def eps2 : Fin 1 → Fin 2 → Fin 2 → ℚ := fun _ _ _ => 0

/-- A zero length-1 history buffer of two state dimensions and two members. -/
def j2 : Fin 1 → Matrix (Fin 2) (Fin 2) ℚ := fun _ => 0

/-- A length-2 history of zero ensembles of one state dimension and two
members. -/
def zhist2 : Fin 2 → Matrix (Fin 1) (Fin 2) ℚ := fun _ => 0

/-- The step output of the zero scenario with identity R. -/
def out0 : StepOut 1 1 2 := ⟨0, 0, 0, 1, 0⟩

/-- An identity observation collaborator for a one-member one-dimensional
ensemble. -/
def hxOne : Matrix (Fin 1) (Fin 1) ℚ → Matrix (Fin 1) (Fin 1) ℚ := fun M => M

/-- Right-multiplying by the centering operator subtracts the row means:
`M @ I2` is the ensemble-anomaly matrix of M. -/
theorem mul_centering {p n : ℕ} (M : Matrix (Fin p) (Fin n) ℚ) :
    M * centering n = centered M := by
  ext a i
  simp only [Matrix.mul_apply, centering, centered, Matrix.sub_apply, Matrix.one_apply,
    Matrix.of_apply, rowMean]
  rw [Finset.sum_congr rfl fun k _ => mul_sub (M a k) _ _, Finset.sum_sub_distrib]
  congr 1
  · simp
  · rw [← Finset.sum_mul, div_eq_mul_inv]

/-- `np.cov` agrees with the sample covariance as the specification words it. -/
theorem npCov_eq_specSampleCov {p n : ℕ} (Y : Matrix (Fin p) (Fin n) ℚ) :
    npCov Y = specSampleCov Y := by
  ext a b
  simp only [npCov, specSampleCov, Matrix.smul_apply, Matrix.mul_apply,
    Matrix.transpose_apply, Matrix.of_apply, rowMean, smul_eq_mul]
  rw [div_eq_mul_inv, mul_comm]
  exact (div_eq_mul_inv _ _).symm

/-- On a nonsingular matrix, the embedded `numpy.linalg.inv` returns the
Mathlib matrix inverse. -/
theorem npInv_ok {n : ℕ} (A : Matrix (Fin n) (Fin n) ℚ) (h : A.det ≠ 0) :
    npInv A = .ok A⁻¹ := by
  rw [npInv, if_neg h, Matrix.inv_def, Ring.inverse_eq_inv']

/-- Claim C1: in every filtering step of batch_filter the innovation covariance
is S = (sample covariance of the predicted-observation ensemble Y with N-1
normalization) + R, and every ensemble member i is updated by adding the gain
X̄Ȳᵗ((N-1)·S)⁻¹ applied to the innovation z - Y_i - μ_i, where X̄ and Ȳ are
the mean-subtracted state and observation ensembles and μ_i the i-th
observation-noise draw of that step. -/
theorem filterStep_cov_and_gain_update {dx dz N : ℕ} {α : Type} (self : TEnKF dx dz N α)
    (z : Fin dz → ℚ) (mus_t : Matrix (Fin N) (Fin dz) ℚ) (eps_t : Fin N → Fin dx → ℚ)
    (X : Matrix (Fin dx) (Fin N) ℚ) (out : StepOut dx dz N)
    (h : filterStep self z mus_t eps_t X = .ok out) :
    out.S = specSampleCov out.Y + self.R ∧
    ∀ i : Fin N, (fun d => out.Xnew d i) =
      (fun d => out.Xpred d i) +
        (centered out.Xpred * (centered out.Y).transpose *
            (((N : ℚ) - 1) • out.S)⁻¹).mulVec
          (fun p => z p - out.Y p i - mus_t i p) := by
  simp only [filterStep] at h
  rcases hni : npInv (((N : ℚ) - 1) •
      (npCov (obsY self (predictEns self.t_func eps_t X)) + self.R)) with e | Sinv
  · rw [hni] at h; exact absurd h (by simp)
  · rw [hni] at h
    have hdet : (((N : ℚ) - 1) •
        (npCov (obsY self (predictEns self.t_func eps_t X)) + self.R)).det ≠ 0 := by
      intro hd
      rw [npInv, if_pos hd] at hni
      exact absurd hni (by simp)
    have hSi : Sinv = (((N : ℚ) - 1) •
        (npCov (obsY self (predictEns self.t_func eps_t X)) + self.R))⁻¹ := by
      rw [npInv_ok _ hdet] at hni
      exact (Except.ok.injEq _ _).mp hni.symm
    rw [Except.ok.injEq] at h
    subst h
    constructor
    · exact congrArg (· + self.R) (npCov_eq_specSampleCov _)
    · intro i
      funext d
      simp only [Pi.add_apply, Matrix.add_apply]
      congr 1
      rw [mul_centering, mul_centering, hSi]
      simp only [Matrix.mulVec, Matrix.mul_apply, Matrix.dotProduct]
      refine Finset.sum_congr rfl fun p _ => ?_
      simp [obsMat, Matrix.sub_apply, Matrix.transpose_apply]

/-- Claim C10: the result of rts_smoother is independent of its means, covs and
rcond arguments; on the same stored filter history, any two assignments of
these three parameters produce identical smoothed output, because the body of
the method never reads them. -/
theorem rts_smoother_ignores_means_covs_rcond {dx N T : ℕ} {μ κ : Type}
    (st : FilterState dx N T) (means1 means2 : μ) (covs1 covs2 : κ)
    (rcond1 rcond2 : ℚ)
    (pinv : Matrix (Fin dx) (Fin N) ℚ → Matrix (Fin N) (Fin dx) ℚ) :
    rts_smoother st means1 covs1 rcond1 pinv = rts_smoother st means2 covs2 rcond2 pinv :=
  rfl

/-- Claim C7, amended part: invoking rts_smoother on a filter object whose
stored ensemble history attribute Xs was never assigned (no batch_filter run
at all) fails at the very first attribute read, before any smoothing
computation. -/
theorem rts_smoother_missing_history_fails {dx N T : ℕ} {μ κ : Type}
    (st : FilterState dx N T) (means : μ) (covs : κ) (rcond : ℚ)
    (pinv : Matrix (Fin dx) (Fin N) ℚ → Matrix (Fin N) (Fin dx) ℚ)
    (h : st.Xs = none) :
    rts_smoother st means covs rcond pinv = .error "AttributeError: Xs" := by
  rw [rts_smoother, h]
  rfl

/-- Witness for the amended C7 theorem at a concrete empty filter state. -/
theorem rts_smoother_missing_history_fails_witness :
    rts_smoother (⟨none, none, none, none, none⟩ : FilterState 1 2 1)
      (0 : ℚ) (0 : ℚ) 0 (fun M => M.transpose) = .error "AttributeError: Xs" :=
  rts_smoother_missing_history_fails (⟨none, none, none, none, none⟩ : FilterState 1 2 1)
    0 0 0 _ rfl

/-- Claim C4 counterexample: supplying an explicit initial ensemble does not
start the filter from it; `X = init_states or sampled` (tenkf.py line 81) takes
the truth value of the supplied array, which raises ValueError for any ensemble
with more than one element, so the run fails before the time loop.  Here the
caller passes the 1 x 2 initial ensemble [[0, 1]] and the filter raises. -/
theorem batch_filter_explicit_init_raises :
    batch_filter self1 Z1 (some !![0, 1]) false false lpdf0 mus1 eps1 0 j1 =
    .error "ValueError: The truth value of an array with more than one element is ambiguous" := by
  rfl

/-- Claim C5 counterexample: the process-noise draw of tenkf.py line 80 passes
`mean = zeros(dim_z)` together with `cov = Q` (dim_x by dim_x) to the sampler,
so with state dimension 2 and observation dimension 1 the sampler rejects the
mismatched lengths and batch_filter fails before the time loop; no
state-dimension process noise is ever drawn. -/
theorem batch_filter_eps_dimension_mismatch :
    batch_filter self2 Z1 none false false lpdf0 mus1 eps2 0 j2 =
    .error "ValueError: mean and cov must have same length" := by
  rfl

/-- One backward step of the running smoothed state. -/
theorem smoothedAt_succ {dx N T : ℕ} (hT : 0 < T)
    (Xs Xb Xp Xbp : Fin T → Matrix (Fin dx) (Fin N) ℚ)
    (pinv : Matrix (Fin dx) (Fin N) ℚ → Matrix (Fin N) (Fin dx) ℚ)
    (k : ℕ) (hk : k + 1 ≤ T - 1) :
    smoothedAt hT Xs Xb Xp Xbp pinv (k + 1) =
      Xs ⟨T - 1 - (k + 1), by omega⟩ +
        (Xb ⟨T - 1 - (k + 1), by omega⟩ * pinv (Xbp ⟨T - 1 - k, by omega⟩)) *
          (smoothedAt hT Xs Xb Xp Xbp pinv k - Xp ⟨T - 1 - k, by omega⟩) := by
  rw [smoothedAt, if_pos hk]

/-- The smoothed history at the last time step is the stored final ensemble. -/
theorem rtsCore_last {dx N T : ℕ} (hT : 0 < T)
    (Xs Xb Xp Xbp : Fin T → Matrix (Fin dx) (Fin N) ℚ)
    (pinv : Matrix (Fin dx) (Fin N) ℚ → Matrix (Fin N) (Fin dx) ℚ)
    (i : Fin T) (hi : i.val = T - 1) :
    rtsCore hT Xs Xb Xp Xbp pinv i = Xs i := by
  have h0 : T - 1 - i.val = 0 := by omega
  simp only [rtsCore]
  rw [h0, smoothedAt]
  have e : (⟨T - 1, by omega⟩ : Fin T) = i := by
    apply Fin.ext
    show T - 1 = i.val
    omega
  rw [e]

/-- The smoothed history before the last step satisfies the backward
recurrence of tenkf.py lines 130-131. -/
theorem rtsCore_rec {dx N T : ℕ} (hT : 0 < T)
    (Xs Xb Xp Xbp : Fin T → Matrix (Fin dx) (Fin N) ℚ)
    (pinv : Matrix (Fin dx) (Fin N) ℚ → Matrix (Fin N) (Fin dx) ℚ)
    (i j : Fin T) (hj : j.val = i.val + 1) (hi : i.val < T - 1) :
    rtsCore hT Xs Xb Xp Xbp pinv i =
      Xs i + (Xb i * pinv (Xbp j)) * (rtsCore hT Xs Xb Xp Xbp pinv j - Xp j) := by
  have hk : T - 1 - i.val = (T - 1 - j.val) + 1 := by omega
  simp only [rtsCore]
  rw [hk, smoothedAt_succ hT Xs Xb Xp Xbp pinv (T - 1 - j.val) (by omega)]
  have e1 : (⟨T - 1 - (T - 1 - j.val + 1), by omega⟩ : Fin T) = i := by
    apply Fin.ext
    show T - 1 - (T - 1 - j.val + 1) = i.val
    omega
  have e2 : (⟨T - 1 - (T - 1 - j.val), by omega⟩ : Fin T) = j := by
    apply Fin.ext
    show T - 1 - (T - 1 - j.val) = j.val
    omega
  rw [e1, e2]

/-- Claim C2: rts_smoother starts the running smoothed state at the final
posterior ensemble of the stored filter history and, processing time steps in
strict reverse order from T-2 down to 0, sets the smoothed ensemble at step i
to posterior_i + J (smoothed_{i+1} - prior_{i+1}), where the gain J is the
posterior anomaly at step i times the generalized inverse (the collaborator
tinv, a pseudo-inverse, not numpy.linalg.inv) of the prior anomaly at step
i+1. -/
theorem rts_smoother_backward_recursion {dx N Tm : ℕ} {μ κ : Type}
    (st : FilterState dx N (Tm + 2)) (means : μ) (covs : κ) (rcond : ℚ)
    (pinv : Matrix (Fin dx) (Fin N) ℚ → Matrix (Fin N) (Fin dx) ℚ)
    (xs xb xp xbp : Fin (Tm + 2) → Matrix (Fin dx) (Fin N) ℚ)
    (hXs : st.Xs = some xs) (hXb : st.X_bars = some xb)
    (hXbp : st.X_bar_priors = some xbp) (hXp : st.X_priors = some xp) :
    ∃ Ss, rts_smoother st means covs rcond pinv = .ok Ss ∧
      Ss (Fin.last (Tm + 1)) = xs (Fin.last (Tm + 1)) ∧
      ∀ i : Fin (Tm + 1), Ss i.castSucc =
        xs i.castSucc + (xb i.castSucc * pinv (xbp i.succ)) *
          (Ss i.succ - xp i.succ) := by
  refine ⟨rtsCore (by omega) xs xb xp xbp pinv, ?_, ?_, ?_⟩
  · rw [rts_smoother, hXs]
    simp only [attrGet]
    rw [dif_neg (by omega), if_neg (by omega), hXb, hXbp, hXp]
  · exact rtsCore_last _ xs xb xp xbp pinv _ (by simp)
  · intro i
    have hlt := i.isLt
    have h1 : (i.succ : Fin (Tm + 2)).val = (i.castSucc : Fin (Tm + 2)).val + 1 := by
      simp
    have h2 : (i.castSucc : Fin (Tm + 2)).val < (Tm + 2) - 1 := by
      simp only [Fin.coe_castSucc]
      omega
    exact rtsCore_rec _ xs xb xp xbp pinv i.castSucc i.succ h1 h2

/-- Witness for C2 at a concrete two-step stored history with a concrete
generalized inverse. -/
theorem rts_smoother_backward_recursion_witness :
    ∃ Ss, rts_smoother ⟨some zhist2, some zhist2, some zhist2, some zhist2, none⟩
        (0 : ℚ) (0 : ℚ) 0 (fun M => M.transpose) = .ok Ss ∧
      Ss (Fin.last 1) = zhist2 (Fin.last 1) ∧
      ∀ i : Fin 1, Ss i.castSucc =
        zhist2 i.castSucc + (zhist2 i.castSucc * (zhist2 i.succ).transpose) *
          (Ss i.succ - zhist2 i.succ) :=
  rts_smoother_backward_recursion _ 0 0 0 _ zhist2 zhist2 zhist2 zhist2 rfl rfl rfl rfl

/-- Inversion of a successful batch_filter run: the dimensions check passed,
the initial-ensemble selection succeeded, the time loop ran to completion, and
the output pair is assembled from the final loop state. -/
theorem batch_filter_ok_elim {dx dz N T : ℕ} {α : Type} (self : TEnKF dx dz N α)
    (Z : Fin T → Fin dz → ℚ) (init_states : Option (Matrix (Fin dx) (Fin N) ℚ))
    (store calc_ll : Bool)
    (logpdf : (Fin dz → ℚ) → (Fin dz → ℚ) → Matrix (Fin dz) (Fin dz) ℚ → ℚ)
    (mus : Fin T → Matrix (Fin N) (Fin dz) ℚ)
    (epss : Fin T → Fin N → Fin dx → ℚ)
    (sampledInit : Matrix (Fin dx) (Fin N) ℚ)
    (junk : Fin T → Matrix (Fin dx) (Fin N) ℚ)
    (out : ℚ ⊕ (Fin N → Fin T → Fin dx → ℚ)) (st : FilterState dx N T)
    (h : batch_filter self Z init_states store calc_ll logpdf mus epss sampledInit junk
      = .ok (out, st)) :
    ∃ X0 s, selectInit init_states sampledInit = .ok X0 ∧
      filterLoop self Z store calc_ll logpdf mus epss (List.finRange T)
        { X := X0, ll := 0, Xs := junk, X_priors := junk,
          X_bars := junk, X_bar_priors := junk } = .ok s ∧
      out = (if calc_ll then Sum.inl s.ll else Sum.inr (rollXs s.Xs)) ∧
      st = finishState store calc_ll s := by
  rw [batch_filter] at h
  by_cases hdz : dz = dx
  · rw [if_pos hdz] at h
    rcases hsel : selectInit init_states sampledInit with e | X0 <;> rw [hsel] at h
    · exact absurd h (by simp)
    · dsimp only at h
      rcases hloop : filterLoop self Z store calc_ll logpdf mus epss (List.finRange T)
          { X := X0, ll := 0, Xs := junk, X_priors := junk,
            X_bars := junk, X_bar_priors := junk } with e | s <;> rw [hloop] at h
      · exact absurd h (by simp)
      · dsimp only at h
        have hp := (Except.ok.injEq _ _).mp h
        refine ⟨X0, s, rfl, hloop, ?_, ?_⟩
        · exact (((Prod.mk.injEq _ _ _ _).mp hp).1).symm
        · exact (((Prod.mk.injEq _ _ _ _).mp hp).2).symm
  · rw [if_neg hdz] at h
    exact absurd h (by simp)

/-- Claim C6: a successful batch_filter run returns the scalar cumulative
log-likelihood when calc_ll is true (the same scalar retained in the ll
attribute), and otherwise returns the stored T x dx x N ensemble history
rolled so that the ensemble-member axis is outermost (an N x T x dx
arrangement of the same values); the two output forms are mutually selected by
the flag. -/
theorem batch_filter_output_selection {dx dz N T : ℕ} {α : Type}
    (self : TEnKF dx dz N α) (Z : Fin T → Fin dz → ℚ)
    (init_states : Option (Matrix (Fin dx) (Fin N) ℚ)) (store calc_ll : Bool)
    (logpdf : (Fin dz → ℚ) → (Fin dz → ℚ) → Matrix (Fin dz) (Fin dz) ℚ → ℚ)
    (mus : Fin T → Matrix (Fin N) (Fin dz) ℚ)
    (epss : Fin T → Fin N → Fin dx → ℚ)
    (sampledInit : Matrix (Fin dx) (Fin N) ℚ)
    (junk : Fin T → Matrix (Fin dx) (Fin N) ℚ)
    (out : ℚ ⊕ (Fin N → Fin T → Fin dx → ℚ)) (st : FilterState dx N T)
    (h : batch_filter self Z init_states store calc_ll logpdf mus epss sampledInit junk
      = .ok (out, st)) :
    (calc_ll = true → ∃ l, out = Sum.inl l ∧ st.ll = some l) ∧
    (calc_ll = false → ∃ xs, st.Xs = some xs ∧
      out = Sum.inr (fun i t d => xs t d i)) := by
  obtain ⟨X0, s, _, _, hout, hst⟩ := batch_filter_ok_elim self Z init_states store calc_ll
    logpdf mus epss sampledInit junk out st h
  subst hout
  subst hst
  constructor
  · intro hc
    subst hc
    exact ⟨s.ll, by simp, by simp [finishState]⟩
  · intro hc
    subst hc
    refine ⟨s.Xs, by simp [finishState], ?_⟩
    simp only [Bool.false_eq_true, if_false]
    rfl

/-- Predicting a zero two-member ensemble with zero noise through fx1 yields
the zero ensemble. -/
theorem pred_zero : predictEns fx1 (fun _ _ => 0) (0 : Matrix (Fin 1) (Fin 2) ℚ) = 0 := by
  ext d i
  simp [predictEns, fx1]

/-- Observing a zero ensemble through hx1 yields the zero ensemble. -/
theorem obs_zero (R0 Q0 P0 : Matrix (Fin 1) (Fin 1) ℚ) (x0 : Fin 1 → ℚ) :
    obsY (⟨fx1, hx1, R0, Q0, P0, x0⟩ : TEnKF 1 1 2 Unit) (0 : Matrix (Fin 1) (Fin 2) ℚ) = 0 := by
  ext d i
  simp [obsY, hx1]

/-- The sample covariance of a zero ensemble is zero. -/
theorem cov_zero : npCov (0 : Matrix (Fin 1) (Fin 2) ℚ) = 0 := by
  ext a b
  simp [npCov, Matrix.mul_apply]

/-- Updating the zero history buffer with a zero ensemble leaves it unchanged. -/
theorem update_j1 (t : Fin 1) :
    Function.update j1 t (0 : Matrix (Fin 1) (Fin 2) ℚ) = j1 := by
  funext u
  rw [Subsingleton.elim u t, Function.update_same]
  rfl

/-- A filtering step on a zero-spread zero ensemble with zero noise: the
ensemble is unchanged and S equals R. -/
theorem filterStep_zero (R0 Q0 P0 : Matrix (Fin 1) (Fin 1) ℚ) (x0 : Fin 1 → ℚ)
    (hdet : R0.det ≠ 0) :
    filterStep (⟨fx1, hx1, R0, Q0, P0, x0⟩ : TEnKF 1 1 2 Unit)
      (fun _ => 0) 0 (fun _ _ => 0) 0 = .ok ⟨0, 0, 0, R0, 0⟩ := by
  have hpred : predictEns (TEnKF.t_func ⟨fx1, hx1, R0, Q0, P0, x0⟩) (fun _ _ => 0)
      (0 : Matrix (Fin 1) (Fin 2) ℚ) = 0 := pred_zero
  simp only [filterStep, hpred, obs_zero, cov_zero]
  have harg : (((2 : ℕ) : ℚ) - 1) • ((0 : Matrix (Fin 1) (Fin 1) ℚ) + R0) = R0 := by
    norm_num
  rw [harg, npInv, if_neg hdet]
  dsimp only
  simp [Matrix.zero_mul, zero_add]

/-- The one-step time loop on the zero scenario returns the unchanged state. -/
theorem filterLoop_zero (R0 Q0 P0 : Matrix (Fin 1) (Fin 1) ℚ) (x0 : Fin 1 → ℚ)
    (hdet : R0.det ≠ 0) (store cll : Bool) :
    filterLoop (⟨fx1, hx1, R0, Q0, P0, x0⟩ : TEnKF 1 1 2 Unit) Z1 store cll lpdf0 mus1 eps1
      (List.finRange 1) ⟨0, 0, j1, j1, j1, j1⟩ = .ok ⟨0, 0, j1, j1, j1, j1⟩ := by
  have hstep : filterStep (⟨fx1, hx1, R0, Q0, P0, x0⟩ : TEnKF 1 1 2 Unit)
      (Z1 0) (mus1 0) (eps1 0)
      (LoopState.X ⟨0, 0, j1, j1, j1, j1⟩) = .ok ⟨0, 0, 0, R0, 0⟩ :=
    filterStep_zero R0 Q0 P0 x0 hdet
  have hfr : List.finRange 1 = [(0 : Fin 1)] := rfl
  rw [hfr]
  simp only [filterLoop, filterBody, hstep]
  cases store <;> cases cll <;> simp [update_j1, lpdf0]

/-- A complete one-step batch_filter run on the zero scenario, for every
combination of the store and calc_ll flags. -/
theorem batch_filter_zero (R0 Q0 P0 : Matrix (Fin 1) (Fin 1) ℚ) (x0 : Fin 1 → ℚ)
    (hdet : R0.det ≠ 0) (store cll : Bool) :
    batch_filter (⟨fx1, hx1, R0, Q0, P0, x0⟩ : TEnKF 1 1 2 Unit) Z1 none store cll lpdf0
      mus1 eps1 0 j1 =
      .ok (if cll then Sum.inl 0 else Sum.inr (rollXs j1),
           finishState store cll ⟨0, 0, j1, j1, j1, j1⟩) := by
  rw [batch_filter, if_pos rfl]
  have hsel : selectInit (none : Option (Matrix (Fin 1) (Fin 2) ℚ)) 0 = .ok 0 := rfl
  rw [hsel]
  dsimp only
  rw [filterLoop_zero R0 Q0 P0 x0 hdet store cll]

/-- Witness for C1 at a concrete filtering step that succeeds. -/
theorem filterStep_cov_and_gain_update_witness :
    filterStep self1 (fun _ => 0) 0 (fun _ _ => 0) 0 = .ok out0 ∧
    (out0.S = specSampleCov out0.Y + self1.R ∧
     ∀ i : Fin 2, (fun d => out0.Xnew d i) =
       (fun d => out0.Xpred d i) +
         (centered out0.Xpred * (centered out0.Y).transpose *
             ((((2 : ℕ) : ℚ) - 1) • out0.S)⁻¹).mulVec
           (fun p => (fun _ : Fin 1 => (0 : ℚ)) p - out0.Y p i -
             (0 : Matrix (Fin 2) (Fin 1) ℚ).transpose p i)) := by
  have h : filterStep self1 (fun _ => 0) 0 (fun _ _ => 0) 0 = .ok out0 :=
    filterStep_zero 1 1 1 (fun _ => 0) (by simp)
  exact ⟨h, filterStep_cov_and_gain_update self1 _ _ _ _ _ h⟩

/-- Claim C3: a batch_filter run with storage enabled followed by rts_smoother
yields a smoothed history of the same shape as the stored filter history (the
same time-indexed family of dx x N matrices), whose entry at the last time
step equals, exactly, the posterior ensemble the filter stored at the last
time step. -/
theorem smoother_terminal_matches_filter {dx dz N T : ℕ} {α μ κ : Type}
    (self : TEnKF dx dz N α) (Z : Fin T → Fin dz → ℚ)
    (init_states : Option (Matrix (Fin dx) (Fin N) ℚ)) (calc_ll : Bool)
    (logpdf : (Fin dz → ℚ) → (Fin dz → ℚ) → Matrix (Fin dz) (Fin dz) ℚ → ℚ)
    (mus : Fin T → Matrix (Fin N) (Fin dz) ℚ)
    (epss : Fin T → Fin N → Fin dx → ℚ)
    (sampledInit : Matrix (Fin dx) (Fin N) ℚ)
    (junk : Fin T → Matrix (Fin dx) (Fin N) ℚ)
    (means : μ) (covs : κ) (rcond : ℚ)
    (pinv : Matrix (Fin dx) (Fin N) ℚ → Matrix (Fin N) (Fin dx) ℚ)
    (out : ℚ ⊕ (Fin N → Fin T → Fin dx → ℚ)) (st : FilterState dx N T)
    (Ss : Fin T → Matrix (Fin dx) (Fin N) ℚ) (hT : 0 < T)
    (hbf : batch_filter self Z init_states true calc_ll logpdf mus epss sampledInit junk
      = .ok (out, st))
    (hsm : rts_smoother st means covs rcond pinv = .ok Ss) :
    ∃ xs, st.Xs = some xs ∧ Ss ⟨T - 1, by omega⟩ = xs ⟨T - 1, by omega⟩ := by
  obtain ⟨X0, s, -, -, -, hst⟩ := batch_filter_ok_elim self Z init_states true calc_ll
    logpdf mus epss sampledInit junk out st hbf
  subst hst
  refine ⟨s.Xs, by simp [finishState], ?_⟩
  rw [rts_smoother] at hsm
  simp only [finishState, if_true, attrGet] at hsm
  rw [dif_neg (by omega)] at hsm
  by_cases hT1 : T = 1
  · rw [if_pos hT1] at hsm
    have hx := (Except.ok.injEq _ _).mp hsm
    rw [← hx]
  · rw [if_neg hT1] at hsm
    have hx := (Except.ok.injEq _ _).mp hsm
    rw [← hx]
    exact rtsCore_last _ _ _ _ _ pinv _ rfl

/-- Witness for C3 at a concrete one-step stored run followed by the
smoother. -/
theorem smoother_terminal_matches_filter_witness :
    ∃ xs, (finishState true false (⟨0, 0, j1, j1, j1, j1⟩ : LoopState 1 2 1)).Xs = some xs ∧
      j1 ⟨1 - 1, by omega⟩ = xs ⟨1 - 1, by omega⟩ :=
  smoother_terminal_matches_filter (⟨fx1, hx1, 1, 1, 1, fun _ => 0⟩ : TEnKF 1 1 2 Unit)
    Z1 none false lpdf0 mus1 eps1 0 j1 (0 : ℚ) (0 : ℚ) 0 (fun M => M.transpose)
    _ _ j1 (by omega)
    (batch_filter_zero 1 1 1 (fun _ => 0) (by simp) true false) rfl

/-- Witness for C6: the two flag settings on a concrete successful run. -/
theorem batch_filter_output_selection_witness :
    ((true = true → ∃ l, (if true then Sum.inl (0 : ℚ) else Sum.inr (rollXs j1)) = Sum.inl l ∧
        (finishState false true (⟨0, 0, j1, j1, j1, j1⟩ : LoopState 1 2 1)).ll = some l) ∧
     (true = false → ∃ xs,
        (finishState false true (⟨0, 0, j1, j1, j1, j1⟩ : LoopState 1 2 1)).Xs = some xs ∧
        (if true then Sum.inl (0 : ℚ) else Sum.inr (rollXs j1)) =
          Sum.inr fun i t d => xs t d i)) ∧
    ((false = true → ∃ l, (if false then Sum.inl (0 : ℚ) else Sum.inr (rollXs j1)) = Sum.inl l ∧
        (finishState false false (⟨0, 0, j1, j1, j1, j1⟩ : LoopState 1 2 1)).ll = some l) ∧
     (false = false → ∃ xs,
        (finishState false false (⟨0, 0, j1, j1, j1, j1⟩ : LoopState 1 2 1)).Xs = some xs ∧
        (if false then Sum.inl (0 : ℚ) else Sum.inr (rollXs j1)) =
          Sum.inr fun i t d => xs t d i)) :=
  ⟨batch_filter_output_selection _ Z1 none false true lpdf0 mus1 eps1 0 j1 _ _
      (batch_filter_zero 1 1 1 (fun _ => 0) (by simp) false true),
   batch_filter_output_selection _ Z1 none false false lpdf0 mus1 eps1 0 j1 _ _
      (batch_filter_zero 1 1 1 (fun _ => 0) (by simp) false false)⟩

/-- Claim C7 counterexample: after a batch_filter run without storage on a
one-step horizon, rts_smoother is not a fatal missing-state error: the
backward loop over range(T-1) is empty, the missing anomaly histories are
never read, and the smoother silently returns the copied, unsmoothed filter
history. -/
theorem rts_smoother_after_unstored_run_silently_succeeds :
    batch_filter (⟨fx1, hx1, 1, 1, 1, fun _ => 0⟩ : TEnKF 1 1 2 Unit) Z1 none false false
        lpdf0 mus1 eps1 0 j1 =
      .ok (Sum.inr (rollXs j1), finishState false false ⟨0, 0, j1, j1, j1, j1⟩) ∧
    (finishState false false (⟨0, 0, j1, j1, j1, j1⟩ : LoopState 1 2 1)).X_bars = none ∧
    rts_smoother (finishState false false (⟨0, 0, j1, j1, j1, j1⟩ : LoopState 1 2 1))
      (0 : ℚ) (0 : ℚ) 0 (fun M => M.transpose) = .ok j1 := by
  exact ⟨batch_filter_zero 1 1 1 (fun _ => 0) (by simp) false false, rfl, rfl⟩

/-- If the matrix (N-1)·S formed at the head step of the remaining time loop is
singular, the loop fails there with the LinAlgError of the inversion and no
further step of the recursion is processed. -/
theorem filterLoop_cons_singular {dx dz N T : ℕ} {α : Type} (self : TEnKF dx dz N α)
    (Z : Fin T → Fin dz → ℚ) (store calc_ll : Bool)
    (logpdf : (Fin dz → ℚ) → (Fin dz → ℚ) → Matrix (Fin dz) (Fin dz) ℚ → ℚ)
    (mus : Fin T → Matrix (Fin N) (Fin dz) ℚ)
    (epss : Fin T → Fin N → Fin dx → ℚ)
    (t : Fin T) (ts : List (Fin T)) (s : LoopState dx N T)
    (h : (((N : ℚ) - 1) •
      (npCov (obsY self (predictEns self.t_func (epss t) s.X)) + self.R)).det = 0) :
    filterLoop self Z store calc_ll logpdf mus epss (t :: ts) s =
      .error "LinAlgError: Singular matrix" := by
  have hstep : filterStep self (Z t) (mus t) (epss t) s.X =
      .error "LinAlgError: Singular matrix" := by
    simp only [filterStep, npInv, if_pos h]
  simp only [filterLoop, filterBody, hstep]

/-- Claim C8 counterexample: N = 1 is not rejected as an invalid
configuration.  The constructor performs no validation of the ensemble size:
called with N = 1 it simply produces the ordinary filter object, the same
record assignment as for any other N, so N >= 2 is not an enforced
precondition.  (What the resulting run then does is floating-point NaN
degradation from the zero-degrees-of-freedom covariance, not a rejection;
that path is outside this exact-arithmetic embedding.) -/
theorem tenkf_accepts_ensemble_size_one :
    TEnKF.init 1 1 1 fx1 hxOne = (⟨fx1, hxOne, 1, 1, 1, fun _ => 0⟩ : TEnKF 1 1 1 Unit) :=
  rfl

/-- Claim C8, amended: no N >= 2 precondition is enforced.  The constructor is
a plain record assignment that accepts every ensemble size N, including
N = 1, without any validation or rejection path; and an N = 2 run completes
normally, its (N-1) normalization dividing by N - 1 = 1 without any
division-by-zero error.  (The real N = 1 run is not rejected either: np.cov
of a single member warns and yields NaN and the NaN matrix inverts without
raising, a floating-point degradation this exact embedding does not model.) -/
theorem tenkf_no_ensemble_size_validation :
    (∀ (dx dz N : ℕ) (fx : (Fin dx → ℚ) → (Fin dx → ℚ) → (Fin dx → ℚ) × Unit)
        (hx : Matrix (Fin N) (Fin dx) ℚ → Matrix (Fin N) (Fin dz) ℚ),
      TEnKF.init dx dz N fx hx = ⟨fx, hx, 1, 1, 1, fun _ => 0⟩) ∧
    isOkB (batch_filter (⟨fx1, hx1, 1, 1, 1, fun _ => 0⟩ : TEnKF 1 1 2 Unit) Z1 none
      false false lpdf0 mus1 eps1 0 j1) = true := by
  refine ⟨fun dx dz N fx hx => rfl, ?_⟩
  rw [batch_filter_zero 1 1 1 (fun _ => 0) (by simp) false false]
  rfl

/-- Claim C9, amended: batch_filter signals an error exactly when the inverted
matrix (N-1)·S is singular; at the offending step the inversion raises
LinAlgError and the whole remaining recursion is aborted with that error, so no
corrupted values propagate into later steps.  An invertible S that is merely
not positive-definite or ill-conditioned is inverted without complaint (see
the counterexample). -/
theorem batch_filter_aborts_on_singular_S {dx dz N T : ℕ} {α : Type}
    (self : TEnKF dx dz N α) (Z : Fin T → Fin dz → ℚ) (store calc_ll : Bool)
    (logpdf : (Fin dz → ℚ) → (Fin dz → ℚ) → Matrix (Fin dz) (Fin dz) ℚ → ℚ)
    (mus : Fin T → Matrix (Fin N) (Fin dz) ℚ)
    (epss : Fin T → Fin N → Fin dx → ℚ)
    (t : Fin T) (ts : List (Fin T)) (s : LoopState dx N T)
    (h : (((N : ℚ) - 1) •
      (npCov (obsY self (predictEns self.t_func (epss t) s.X)) + self.R)).det = 0) :
    filterLoop self Z store calc_ll logpdf mus epss (t :: ts) s =
      .error "LinAlgError: Singular matrix" :=
  filterLoop_cons_singular self Z store calc_ll logpdf mus epss t ts s h

/-- Witness for the amended C9 theorem: with R = 0 and a zero-spread ensemble,
S is the zero matrix and the loop aborts at the head step. -/
theorem batch_filter_aborts_on_singular_S_witness :
    filterLoop (⟨fx1, hx1, 0, 1, 1, fun _ => 0⟩ : TEnKF 1 1 2 Unit) Z1 false false lpdf0
      mus1 eps1 ((0 : Fin 1) :: []) ⟨0, 0, j1, j1, j1, j1⟩ =
      .error "LinAlgError: Singular matrix" := by
  refine batch_filter_aborts_on_singular_S _ Z1 false false lpdf0 mus1 eps1 0 []
    ⟨0, 0, j1, j1, j1, j1⟩ ?_
  have h1 : predictEns (TEnKF.t_func (⟨fx1, hx1, 0, 1, 1, fun _ => 0⟩ : TEnKF 1 1 2 Unit))
      (eps1 0) (LoopState.X (⟨0, 0, j1, j1, j1, j1⟩ : LoopState 1 2 1)) = 0 := pred_zero
  rw [h1, obs_zero, cov_zero]
  simp [Matrix.det_fin_one]

/-- Claim C9 counterexample: an innovation covariance that is invertible but
not positive-definite (here the 1 x 1 matrix [[-5]], with a negative
eigenvalue) passes through the inversion without any check: the filtering step
succeeds with S = [[-5]] and the whole run completes without error. -/
theorem batch_filter_accepts_non_posdef_S :
    filterStep (⟨fx1, hx1, !![-5], 1, 1, fun _ => 0⟩ : TEnKF 1 1 2 Unit)
        (fun _ => 0) 0 (fun _ _ => 0) 0 = .ok ⟨0, 0, 0, !![-5], 0⟩ ∧
    (!![-5] : Matrix (Fin 1) (Fin 1) ℚ) 0 0 < 0 ∧
    batch_filter (⟨fx1, hx1, !![-5], 1, 1, fun _ => 0⟩ : TEnKF 1 1 2 Unit) Z1 none false false
        lpdf0 mus1 eps1 0 j1 =
      .ok (Sum.inr (rollXs j1), finishState false false ⟨0, 0, j1, j1, j1, j1⟩) := by
  have hdet : (!![-5] : Matrix (Fin 1) (Fin 1) ℚ).det ≠ 0 := by
    rw [Matrix.det_fin_one]
    norm_num
  refine ⟨filterStep_zero !![-5] 1 1 (fun _ => 0) hdet, by norm_num, ?_⟩
  exact batch_filter_zero !![-5] 1 1 (fun _ => 0) hdet false false

end Econsieve

